import Mathlib

set_option maxRecDepth 4000

deriving instance DecidableEq for Except

/-!
Shallow embedding of the cashflow calculation service
(`calculator/services.py`) and proofs about it.

Modelling conventions:
* Python floats are modelled as exact rationals (`ℚ`).  Every concrete
  quantity evaluated by a theorem below is several orders of magnitude
  further from a rounding boundary than the binary64 rounding error of the
  corresponding Python computation, so the rational and float results agree
  digit for digit.
* `datetime` values are modelled by their calendar date; the service only
  ever subtracts two dates (both at midnight in every reachable input of
  interest) and takes the `.days` component, which is the difference of
  their civil day numbers.
* Functions that raise in Python return `Option`/`Except` here.
* Strings are handled through their character lists.  Only ASCII case
  folding / whitespace is modelled (the service only compares ASCII keys);
  Python's `float` also accepts `inf`/`nan`/underscores, which have no
  rational counterpart and are outside the model.
-/

namespace Excel

/-- ASCII whitespace as stripped by Python's `str.strip()`. -/
def isSpaceChar (c : Char) : Bool :=
  c == ' ' || c == '\t' || c == '\n' || c == '\r' || c.toNat == 11 || c.toNat == 12

/-- Strip leading and trailing whitespace from a character list. -/
def stripChars (cs : List Char) : List Char :=
  ((cs.dropWhile isSpaceChar).reverse.dropWhile isSpaceChar).reverse

/-- Python `str.strip()` (ASCII fragment). -/
def pyStrip (s : String) : String := ⟨stripChars s.data⟩

/-- ASCII lower-casing of one character. -/
def lowerChar (c : Char) : Char :=
  if 'A' ≤ c ∧ c ≤ 'Z' then Char.ofNat (c.toNat + 32) else c

/-- Python `str.lower()` (ASCII fragment). -/
def pyLower (s : String) : String := ⟨s.data.map lowerChar⟩

/-- Numeric value of a decimal digit character. -/
def digitVal (c : Char) : Nat := c.toNat - 48

/-- Value of a list of decimal digit characters. -/
def natOfDigits (cs : List Char) : Nat :=
  cs.foldl (fun n c => 10 * n + digitVal c) 0

/-- Split a character list at every occurrence of `sep`
(the semantics of Python's `str.split(sep)` for a single-character
separator, and of the regex alternation used by `strptime` literals). -/
def splitOnChar (sep : Char) : List Char → List (List Char)
  | [] => [[]]
  | c :: cs =>
    let r := splitOnChar sep cs
    if c = sep then [] :: r
    else
      match r with
      | [] => [[c]]
      | h :: t => (c :: h) :: t

/-- A calendar date (proleptic Gregorian, as used by Python `datetime`). -/
structure Date where
  year : Int
  month : Int
  day : Int
deriving DecidableEq, Repr

/-- Is `y` a Gregorian leap year? -/
def isLeap (y : Int) : Bool := y % 4 == 0 && (y % 100 != 0 || y % 400 == 0)

/-- Number of days in month `m` of year `y`. -/
def daysInMonth (y m : Int) : Int :=
  if m = 2 then (if isLeap y then 29 else 28)
  else if m = 4 ∨ m = 6 ∨ m = 9 ∨ m = 11 then 30
  else 31

/-- Civil day number of a date (days since 1970-01-01, the standard
era-based conversion; Lean's `Int` division is floor division for positive
divisors, which is what the algorithm requires). -/
def daysFromCivil (y m d : Int) : Int :=
  let ys := if m ≤ 2 then y - 1 else y
  let era := ys / 400
  let yoe := ys - era * 400
  let mp := (m + 9) % 12
  let doy := (153 * mp + 2) / 5 + d - 1
  let doe := yoe * 365 + yoe / 4 - yoe / 100 + doy
  era * 146097 + doe - 719468

/-- Civil day number of a `Date`. -/
def dateToDays (dt : Date) : Int := daysFromCivil dt.year dt.month dt.day

/-- `strptime` numeric field of one or two digits whose value lies in
`[lo, hi]` (the shape of the `%d`, `%m`, `%H`, `%M`, `%S` regexes). -/
def parseNumField (lo hi : Nat) (cs : List Char) : Option Nat :=
  if cs ≠ [] ∧ cs.length ≤ 2 ∧ cs.all Char.isDigit then
    let n := natOfDigits cs
    if lo ≤ n ∧ n ≤ hi then some n else none
  else none

/-- `strptime` `%Y` field: exactly four digits. -/
def parseYear4 (cs : List Char) : Option Nat :=
  if cs.length = 4 ∧ cs.all Char.isDigit then some (natOfDigits cs) else none

/-- The validation performed by the `datetime` constructor:
year ≥ 1 and the day exists in the month. -/
def mkDate (y m d : Nat) : Option Date :=
  if 1 ≤ y ∧ 1 ≤ d ∧ (d : Int) ≤ daysInMonth y m then
    some ⟨y, m, d⟩
  else none

/-- `strptime` with format `%Y-%m-%d`. -/
def parseFmtYMD (cs : List Char) : Option Date :=
  match splitOnChar '-' cs with
  | [ys, ms, ds] => do
    let y ← parseYear4 ys
    let m ← parseNumField 1 12 ms
    let d ← parseNumField 1 31 ds
    mkDate y m d
  | _ => none

/-- `strptime` with format `%Y-%m-%d %H:%M:%S` (the time part is validated
and discarded: the service only ever uses the calendar date). -/
def parseFmtYMDHMS (cs : List Char) : Option Date :=
  match splitOnChar ' ' cs with
  | [ds, ts] => do
    let dt ← parseFmtYMD ds
    match splitOnChar ':' ts with
    | [hs, ms, ss] => do
      let _ ← parseNumField 0 23 hs
      let _ ← parseNumField 0 59 ms
      let _ ← parseNumField 0 59 ss
      pure dt
    | _ => none
  | _ => none

/-- `strptime` with format `%d/%m/%Y`. -/
def parseFmtDMY (cs : List Char) : Option Date :=
  match splitOnChar '/' cs with
  | [ds, ms, ys] => do
    let d ← parseNumField 1 31 ds
    let m ← parseNumField 1 12 ms
    let y ← parseYear4 ys
    mkDate y m d
  | _ => none

/-- `strptime` with format `%m/%d/%Y`. -/
def parseFmtMDY (cs : List Char) : Option Date :=
  match splitOnChar '/' cs with
  | [ms, ds, ys] => do
    let m ← parseNumField 1 12 ms
    let d ← parseNumField 1 31 ds
    let y ← parseYear4 ys
    mkDate y m d
  | _ => none

/-- `strptime` with format `%d-%m-%Y`. -/
def parseFmtDMYdash (cs : List Char) : Option Date :=
  match splitOnChar '-' cs with
  | [ds, ms, ys] => do
    let d ← parseNumField 1 31 ds
    let m ← parseNumField 1 12 ms
    let y ← parseYear4 ys
    mkDate y m d
  | _ => none

/-- `parse_date` from `services.py`: strip, then try the five formats in
order, returning the first success; `none` models the `ValueError` raised
when no format matches. -/
def parse_date (s : String) : Option Date :=
  let cs := stripChars s.data
  parseFmtYMD cs <|> parseFmtYMDHMS cs <|> parseFmtDMY cs <|>
    parseFmtMDY cs <|> parseFmtDMYdash cs

/-- `calculate_age` from `services.py`:
`int(((valuation - birth).days + 1) / 365.25)`.
Python's `int()` truncates toward zero, and `365.25 = 1461/4`, so the
result is the toward-zero truncation of `4*days/1461`; for the day
magnitudes reachable from 4-digit years the float quotient is far closer
to the exact rational than to any other integer boundary. -/
def calculate_age (birth valuation : Date) : Int :=
  Int.tdiv (4 * (dateToDays valuation - dateToDays birth + 1)) 1461

/-- Digits of the exponent of a Python float literal; `neg` records the
sign of the exponent. -/
def parseExpDigits (m : ℚ) (neg : Bool) (cs : List Char) : Option ℚ :=
  if cs ≠ [] ∧ cs.all Char.isDigit then
    let k := natOfDigits cs
    some (if neg then m / 10 ^ k else m * 10 ^ k)
  else none

/-- Optional exponent part of a Python float literal, applied to the
already-parsed mantissa `m`. -/
def parseExpTail (m : ℚ) (cs : List Char) : Option ℚ :=
  match cs with
  | [] => some m
  | e :: rest =>
    if e = 'e' ∨ e = 'E' then
      match rest with
      | '+' :: r => parseExpDigits m false r
      | '-' :: r => parseExpDigits m true r
      | r => parseExpDigits m false r
    else none

/-- Fractional value of a digit string read after the decimal point. -/
def digitsToFrac (cs : List Char) : ℚ := (natOfDigits cs : ℚ) / 10 ^ cs.length

/-- Unsigned body of a Python float literal:
`digits [. digits?] [exp]` or `. digits [exp]`. -/
def parseFloatBody (cs : List Char) : Option ℚ :=
  let p := cs.span Char.isDigit
  match p.2 with
  | '.' :: rest2 =>
    let q := rest2.span Char.isDigit
    if p.1 = [] ∧ q.1 = [] then none
    else parseExpTail ((natOfDigits p.1 : ℚ) + digitsToFrac q.1) q.2
  | _ =>
    if p.1 = [] then none else parseExpTail (natOfDigits p.1) p.2

/-- Python `float(str)` on finite decimal literals: strip whitespace,
optional sign, then the literal body.  `none` models `ValueError`. -/
def parseFloat (s : String) : Option ℚ :=
  match stripChars s.data with
  | '+' :: cs => parseFloatBody cs
  | '-' :: cs => (parseFloatBody cs).map Neg.neg
  | cs => parseFloatBody cs

/-- Python `int(str)`: strip whitespace, optional sign, decimal digits.
`none` models `ValueError`. -/
def parseInt (s : String) : Option Int :=
  match stripChars s.data with
  | '+' :: cs => if cs ≠ [] ∧ cs.all Char.isDigit then some (natOfDigits cs) else none
  | '-' :: cs => if cs ≠ [] ∧ cs.all Char.isDigit then some (-(natOfDigits cs : Int)) else none
  | cs => if cs ≠ [] ∧ cs.all Char.isDigit then some (natOfDigits cs) else none

/-- Floor of a rational (numerator and denominator are coprime and the
denominator is positive, so Euclidean division of `num` by `den` is the
floor). -/
def ratFloor (q : ℚ) : Int := q.num / (q.den : Int)

/-- Round a rational to the nearest integer, ties to even — the rounding
Python's built-in `round` performs. -/
def pyRoundInt (q : ℚ) : Int :=
  let f := ratFloor q
  if q - f < 1 / 2 then f
  else if 1 / 2 < q - f then f + 1
  else if f % 2 = 0 then f else f + 1

/-- Python `round(x, n)` for a non-negative number of decimal places. -/
def roundTo (n : Nat) (q : ℚ) : ℚ := (pyRoundInt (q * 10 ^ n) : ℚ) / 10 ^ n

/-- `DEFAULT_PROBABILITY_TABLE` from `services.py`: age ↦ (qx, px).
A Python dict with distinct keys, modelled as an association list. -/
def DEFAULT_PROBABILITY_TABLE : List (Int × ℚ × ℚ) := [
  (20, 0.001152, 0.998848), (21, 0.001152, 0.998848), (22, 0.001152, 0.998848),
  (23, 0.001152, 0.998848), (24, 0.001152, 0.998848), (25, 0.001413, 0.998587),
  (26, 0.001491, 0.998509), (27, 0.001491, 0.998509), (28, 0.001491, 0.998509),
  (29, 0.001492, 0.998509), (30, 0.001492, 0.998509), (31, 0.001492, 0.998509),
  (32, 0.001491, 0.998509), (33, 0.001492, 0.998509), (34, 0.001492, 0.998509),
  (35, 0.002290, 0.997710), (36, 0.002290, 0.997710), (37, 0.002290, 0.997710),
  (38, 0.002290, 0.997710), (39, 0.002290, 0.997710), (40, 0.003211, 0.996789),
  (41, 0.003211, 0.996789), (42, 0.003211, 0.996789), (43, 0.003211, 0.996789),
  (44, 0.003211, 0.996789), (45, 0.004627, 0.995374), (46, 0.004748, 0.995252),
  (47, 0.004748, 0.995252), (48, 0.004748, 0.995252), (49, 0.004748, 0.995252),
  (50, 0.007059, 0.992941), (51, 0.007059, 0.992941), (52, 0.007059, 0.992941),
  (53, 0.007059, 0.992941), (54, 0.007059, 0.992941), (55, 0.010286, 0.989714),
  (56, 0.010286, 0.989714), (57, 0.010286, 0.989714), (58, 0.010286, 0.989714),
  (59, 0.010286, 0.989714), (60, 0.000000, 1.000000), (61, 0.000000, 1.000000),
  (62, 0.000000, 1.000000), (63, 0.000000, 1.000000), (64, 0.000000, 1.000000),
  (65, 0.000000, 1.000000), (66, 0.000000, 1.000000), (67, 0.000000, 1.000000),
  (68, 0.000000, 1.000000), (69, 0.000000, 1.000000), (70, 0.000000, 1.000000),
  (71, 0.000000, 1.000000), (72, 0.000000, 1.000000), (73, 0.000000, 1.000000)]

/-- `get_probability` from `services.py`: exact key hit, else clamp to the
minimum key when below it, else use the maximum key.  `none` only when the
table is empty (where Python's `min()` would raise). -/
def get_probability (age : Int) (table : List (Int × ℚ × ℚ)) : Option (ℚ × ℚ) :=
  match table.lookup age with
  | some p => some p
  | none =>
    match (table.map Prod.fst).min?, (table.map Prod.fst).max? with
    | some mn, some mx => if age < mn then table.lookup mn else table.lookup mx
    | _, _ => none

/-- The assumption set: `valuation_date`, `discount_rate`,
`salary_increase_rate`, `retirement_age` in `process_cashflow`. -/
structure Assumptions where
  valuation_date : Date
  discount_rate : ℚ
  salary_increase_rate : ℚ
  retirement_age : Int
deriving DecidableEq, Repr

/-- The default assumptions hard-coded in `process_cashflow`. -/
def defaultAssumptions : Assumptions :=
  { valuation_date := ⟨2024, 12, 31⟩
    discount_rate := 0.0545
    salary_increase_rate := 0.05
    retirement_age := 60 }

/-- One parsed employee row. -/
structure Employee where
  emp_id : String
  emp_name : String
  date_birth : Date
  date_joining : Date
  salary : ℚ
deriving DecidableEq, Repr

/-- One emitted projection row (one dict appended to `output_rows`). -/
structure Row where
  emp_id : String
  emp_name : String
  age : Int
  future_salary : ℚ
  survival_prob : ℚ
  death_prob : ℚ
  expected_death_outflow : ℚ
deriving DecidableEq, Repr

/-- The probability lookup as used inside the projection loop.  The table
there is always the (non-empty) default table, so the lookup always
succeeds; the `(0, 0)` fallback is unreachable
(`get_probability_default_isSome` below). -/
def lookupDefault (age : Int) : ℚ × ℚ :=
  (get_probability age DEFAULT_PROBABILITY_TABLE).getD (0, 0)

/-- The unrounded `future_salary` value used in the `k`-th iteration of the
projection loop: initialised to `salary * (1 + rate)` before the loop and
multiplied by `(1 + rate)` after each iteration. -/
def usal (salary rate : ℚ) : Nat → ℚ
  | 0 => salary * (1 + rate)
  | k + 1 => usal salary rate k * (1 + rate)

/-- The `for age in range(current_age, retirement_age)` loop body of
`process_cashflow`, with `fuel` iterations remaining, current iteration
age `age` and current unrounded salary `sal`. -/
def projectLoop (eid ename : String) (rate : ℚ) : Nat → Int → ℚ → List Row
  | 0, _, _ => []
  | fuel + 1, age, sal =>
    { emp_id := eid, emp_name := ename, age := age
      future_salary := roundTo 2 sal
      survival_prob := (lookupDefault age).2
      death_prob := (lookupDefault age).1
      expected_death_outflow :=
        roundTo 6 (sal * (lookupDefault age).2 * (lookupDefault age).1) } ::
    projectLoop eid ename rate fuel (age + 1) (sal * (1 + rate))

/-- Projection of one employee: ages `current_age, …, retirement_age - 1`
(`range(current_age, retirement_age)` has `max 0 (ret - cur)` elements). -/
def projectEmployee (a : Assumptions) (e : Employee) : List Row :=
  let current_age := calculate_age e.date_birth a.valuation_date
  projectLoop e.emp_id e.emp_name a.salary_increase_rate
    (a.retirement_age - current_age).toNat current_age
    (e.salary * (1 + a.salary_increase_rate))

/-- The four assumption keys recognised by the row classifier. -/
def assumptionKeys : List String :=
  ["valuation_date", "discount_rate", "salary_increase_rate", "retirement_age"]

/-- The salary cell with its thousands-separator commas removed
(`row[4].replace(",", "")`). -/
def salaryCell (c : String) : String := ⟨c.data.filter (fun x => x ≠ ',')⟩

/-- The `try` block that parses one employee row (≥ 5 cells); `none`
models the caught `(ValueError, IndexError)`.  The salary cell has its
thousands-separator commas removed before `float`. -/
def parseEmployeeRow (row : List String) : Option Employee :=
  match row with
  | c0 :: c1 :: c2 :: c3 :: c4 :: _ => do
    let b ← parse_date c2
    let j ← parse_date c3
    let s ← parseFloat (salaryCell c4)
    pure { emp_id := pyStrip c0, emp_name := pyStrip c1
           date_birth := b, date_joining := j, salary := s }
  | _ => none

/-- One iteration of the row-classification loop of `process_cashflow`:
skip blank rows; assumption rows overwrite one assumption (a failing value
conversion raises, i.e. returns `Except.error`); header rows are skipped;
rows of ≥ 5 cells are tried as employee rows with failures dropped; all
other rows are skipped. -/
def processRow (st : Assumptions × List Employee) (row : List String) :
    Except String (Assumptions × List Employee) :=
  if ∀ c ∈ row, stripChars c.data = [] then .ok st
  else
    let key := pyLower (pyStrip (row.headD ""))
    if 2 ≤ row.length ∧ key ∈ assumptionKeys then
      let val := (row.drop 1).headD ""
      if key = "valuation_date" then
        match parse_date val with
        | some d => .ok ({ st.1 with valuation_date := d }, st.2)
        | none => .error ("Unable to parse date: " ++ val)
      else if key = "discount_rate" then
        match parseFloat val with
        | some x => .ok ({ st.1 with discount_rate := x }, st.2)
        | none => .error ("could not convert string to float: " ++ val)
      else if key = "salary_increase_rate" then
        match parseFloat val with
        | some x => .ok ({ st.1 with salary_increase_rate := x }, st.2)
        | none => .error ("could not convert string to float: " ++ val)
      else
        match parseInt val with
        | some n => .ok ({ st.1 with retirement_age := n }, st.2)
        | none => .error ("invalid literal for int with base 10: " ++ val)
    else if 5 ≤ row.length then
      if key ∈ ["emp_id", "employee_id", "id"] then .ok st
      else
        match parseEmployeeRow row with
        | some e => .ok (st.1, st.2 ++ [e])
        | none => .ok st
    else .ok st

/-- `process_cashflow` from `services.py`, from the list of CSV rows to
the emitted projection rows plus the two returned counts
(`input_row_count`, `output_row_count`).  The CSV serialisation of the
result is not modelled; an `Except.error` models an uncaught exception
aborting the run. -/
def process_cashflow (rows : List (List String)) :
    Except String (List Row × Nat × Nat) :=
  match rows.foldlM processRow (defaultAssumptions, []) with
  | .error e => .error e
  | .ok (a, emps) =>
    let out := (emps.map (projectEmployee a)).flatten
    .ok (out, emps.length, out.length)


/-!  ### Spec-side definitions and concrete fixtures  -/

/-- Written from the spec's words (not the code): current age as
`floor((valuation_date - birth_date_in_days + 1) / 365.25)` with a
mathematical floor.  `365.25 = 1461/4`, so this is the floor of the exact
rational quotient. -/
def age_floor_spec (birth valuation : Date) : Int :=
  ratFloor (((dateToDays valuation - dateToDays birth + 1 : Int) : ℚ) / (365.25 : ℚ))

/-- Number of cells of a row that are non-blank after stripping. -/
def nonBlankCount (row : List String) : Nat :=
  (row.filter (fun c => !(stripChars c.data).isEmpty)).length

/-- Does the value cell of an assumption row convert successfully for the
given (already stripped and lower-cased) key?  Mirrors which conversion
each branch of the classifier applies. -/
def assumptionValOk (key val : String) : Bool :=
  if key = "valuation_date" then (parse_date val).isSome
  else if key = "discount_rate" then (parseFloat val).isSome
  else if key = "salary_increase_rate" then (parseFloat val).isSome
  else if key = "retirement_age" then (parseInt val).isSome
  else true

/-- The two input rows of the spec's worked scenario. -/
def demoRows : List (List String) :=
  [["valuation_date", "2024-12-31"],
   ["E1", "Alice", "1970-01-01", "2000-01-01", "50000"]]

/-- The employee record produced by the scenario's employee row. -/
def alice : Employee :=
  { emp_id := "E1", emp_name := "Alice", date_birth := ⟨1970, 1, 1⟩
    date_joining := ⟨2000, 1, 1⟩, salary := 50000 }

/-- Like `alice` but with a zero salary (a value the interpreter accepts). -/
def alice0 : Employee :=
  { emp_id := "E2", emp_name := "Zoe", date_birth := ⟨1970, 1, 1⟩
    date_joining := ⟨2000, 1, 1⟩, salary := 0 }

/-- An employee already past the retirement age at the valuation date. -/
def bob : Employee :=
  { emp_id := "E3", emp_name := "Bob", date_birth := ⟨1950, 1, 1⟩
    date_joining := ⟨1980, 1, 1⟩, salary := 40000 }

/-- Junk row used only as the default of `List.headD`. -/
def emptyRow : Row :=
  { emp_id := "", emp_name := "", age := 0, future_salary := 0
    survival_prob := 0, death_prob := 0, expected_death_outflow := 0 }

/-!  ### Helper lemmas  -/

/-- A key that occurs in the table has a successful lookup. -/
lemma lookup_isSome_of_mem_keys {t : List (Int × ℚ × ℚ)} {k : Int}
    (h : k ∈ t.map Prod.fst) : (t.lookup k).isSome = true := by
  rcases List.mem_map.1 h with ⟨p, hp, rfl⟩
  exact List.lookup_isSome_iff.2 ⟨p, hp, by simp⟩

/-- With distinct keys, membership determines the lookup result. -/
lemma lookup_of_mem_nodup :
    ∀ {t : List (Int × ℚ × ℚ)} {k : Int} {p : ℚ × ℚ},
      (t.map Prod.fst).Nodup → (k, p) ∈ t → t.lookup k = some p := by
  intro t
  induction t with
  | nil => intro k p _ h; cases h
  | cons a rest ih =>
    intro k p hnd hmem
    rcases List.mem_cons.1 hmem with h | h
    · subst h; simp [List.lookup_cons]
    · have hk : k ∈ rest.map Prod.fst :=
        List.mem_map.2 ⟨(k, p), h, rfl⟩
      have hne : ¬ (k == a.1) = true := by
        intro hba
        have : a.1 ∈ rest.map Prod.fst := by
          rwa [show a.1 = k from (eq_of_beq hba).symm]
        exact (List.nodup_cons.1 (by simpa using hnd)).1 this
      rw [List.lookup_cons]
      simp only [hne]
      exact ih (List.nodup_cons.1 (by simpa using hnd)).2 h

/-- On a non-empty table `get_probability` always succeeds. -/
lemma get_probability_isSome {t : List (Int × ℚ × ℚ)} (age : Int)
    (hne : t ≠ []) : (get_probability age t).isSome = true := by
  unfold get_probability
  cases hl : t.lookup age with
  | some p => rfl
  | none =>
    have hkeys : t.map Prod.fst ≠ [] :=
      fun h => hne (List.map_eq_nil_iff.1 h)
    cases hmn : (t.map Prod.fst).min? with
    | none => exact absurd (List.min?_eq_none_iff.1 hmn) hkeys
    | some mn =>
      cases hmx : (t.map Prod.fst).max? with
      | none => exact absurd (List.max?_eq_none_iff.1 hmx) hkeys
      | some mx =>
        simp only
        by_cases hlt : age < mn
        · rw [if_pos hlt]
          exact lookup_isSome_of_mem_keys (List.min?_mem min_choice hmn)
        · rw [if_neg hlt]
          exact lookup_isSome_of_mem_keys (List.max?_mem max_choice hmx)

/-- The default table is non-empty, so the fallback in `lookupDefault` is
unreachable. -/
lemma get_probability_default_isSome (age : Int) :
    (get_probability age DEFAULT_PROBABILITY_TABLE).isSome = true :=
  get_probability_isSome age (by decide)

/-!  ### C1  -/

/-- C1: the claim says the engine's current age is the mathematical floor
of `(days + 1) / 365.25` for ALL birth dates.  For a birth date 400 days
after the valuation date the code (Python `int()`, truncation toward
zero) yields -1 while the floor is -2. -/
theorem claim_C1_counterexample :
    calculate_age ⟨2026, 2, 4⟩ ⟨2024, 12, 31⟩ = -1
    ∧ age_floor_spec ⟨2026, 2, 4⟩ ⟨2024, 12, 31⟩ = -2
    ∧ ¬ calculate_age ⟨2026, 2, 4⟩ ⟨2024, 12, 31⟩
        = age_floor_spec ⟨2026, 2, 4⟩ ⟨2024, 12, 31⟩ := by
  refine ⟨by decide, by decide!, by decide!⟩

/-- C1 (amended): whenever the day difference plus one is non-negative —
in particular whenever the birth date is not after the valuation date —
the code's truncation agrees with the spec's floor formula. -/
theorem claim_C1_amended (birth valuation : Date)
    (h : 0 ≤ dateToDays valuation - dateToDays birth + 1) :
    calculate_age birth valuation = age_floor_spec birth valuation := by
  unfold calculate_age age_floor_spec
  set x : Int := dateToDays valuation - dateToDays birth + 1 with hx
  have h4 : (0 : Int) ≤ 4 * x := by omega
  have hq : ((x : ℚ)) / (365.25 : ℚ) = ((4 * x : Int) : ℚ) / ((1461 : ℕ) : ℚ) := by
    rw [show (365.25 : ℚ) = 1461 / 4 by norm_num]
    push_cast
    rw [div_div_eq_mul_div]
    ring_nf
  have hfl : ratFloor ((x : ℚ) / (365.25 : ℚ)) = (4 * x) / 1461 := by
    unfold ratFloor
    rw [← Rat.floor_def, hq, Rat.floor_intCast_div_natCast]
    norm_num
  rw [hfl]
  exact Int.tdiv_eq_ediv h4 (by norm_num)

/-- Witness for C1 (amended) at the scenario's dates. -/
theorem claim_C1_amended_witness :
    calculate_age ⟨1970, 1, 1⟩ ⟨2024, 12, 31⟩
      = age_floor_spec ⟨1970, 1, 1⟩ ⟨2024, 12, 31⟩ :=
  claim_C1_amended ⟨1970, 1, 1⟩ ⟨2024, 12, 31⟩ (by decide)

/-!  ### C2  -/

/-- C2: the claim predicts current age 52 and 8 projection rows for the
scenario input.  The actual day difference 1970-01-01 → 2024-12-31 is
20088 (the spec's 18993 is a miscalculation), so
`int((20088 + 1) / 365.25) = 55`: the run emits 5 rows and the first row
has age 55, contradicting the claim. -/
theorem claim_C2_counterexample :
    ¬ ∃ out, process_cashflow demoRows = Except.ok out
        ∧ out.2.2 = 8 ∧ (out.1.map Row.age).head? = some 52 := by
  rintro ⟨out, hok, h8, -⟩
  have he : (process_cashflow demoRows).toOption.map (fun o => o.2.2) = some 5 := by
    decide!
  rw [hok] at he
  have h5 : out.2.2 = 5 := by simpa [Except.toOption] using he
  omega

/-- C2 (amended): the scenario run parses one employee with current age
55 and emits 5 rows for ages 55..59; the first row's future salary is
50000 × 1.05 = 52500.00 and its expected death outflow is
52500 × 0.989714 × 0.010286 rounded to 6 decimal places, i.e.
534.460406. -/
theorem claim_C2_amended :
    (process_cashflow demoRows).toOption.map
        (fun o => (o.2.1, o.2.2, o.1.map Row.age,
                   (o.1.map Row.future_salary).head?,
                   (o.1.map Row.expected_death_outflow).head?))
      = some (1, 5, [55, 56, 57, 58, 59], some 52500, some 534.460406)
    ∧ roundTo 6 ((52500 : ℚ) * 0.989714 * 0.010286) = 534.460406 := by
  refine ⟨by decide!, by decide!⟩

/-!  ### C3  -/

/-- C3: on a non-empty table with distinct keys the lookup always
succeeds; an age present as a key returns that key's pair, an age below
the minimum key returns the minimum key's pair, and an age above the
maximum key returns the maximum key's pair. -/
theorem claim_C3 (t : List (Int × ℚ × ℚ)) (age : Int) (hne : t ≠ [])
    (hnd : (t.map Prod.fst).Nodup) :
    (get_probability age t).isSome = true
    ∧ (∀ p, (age, p) ∈ t → get_probability age t = some p)
    ∧ (∀ mn p, (t.map Prod.fst).min? = some mn → age < mn →
        (mn, p) ∈ t → get_probability age t = some p)
    ∧ (∀ mx p, (t.map Prod.fst).max? = some mx → mx < age →
        (mx, p) ∈ t → get_probability age t = some p) := by
  refine ⟨get_probability_isSome age hne, ?_, ?_, ?_⟩
  · intro p hp
    unfold get_probability
    rw [lookup_of_mem_nodup hnd hp]
  · intro mn p hmn hlt hp
    have hnone : t.lookup age = none := by
      rw [List.lookup_eq_none_iff]
      intro q hq
      have : mn ≤ q.1 := by
        have h1 := (List.le_min?_iff (fun a b c => le_min_iff) hmn (x := mn)).1
          le_rfl q.1 (List.mem_map.2 ⟨q, hq, rfl⟩)
        exact h1
      have : age ≠ q.1 := by omega
      simpa using this
    unfold get_probability
    rw [hnone, hmn]
    cases hmx : (t.map Prod.fst).max? with
    | none =>
      exact absurd (List.max?_eq_none_iff.1 hmx) (fun h => hne (List.map_eq_nil_iff.1 h))
    | some mx =>
      simp only [if_pos hlt]
      exact lookup_of_mem_nodup hnd hp
  · intro mx p hmx hlt hp
    have hub : ∀ b ∈ t.map Prod.fst, b ≤ mx :=
      fun b hb => (List.max?_le_iff (fun a b c => max_le_iff) hmx (x := mx)).1 le_rfl b hb
    have hnone : t.lookup age = none := by
      rw [List.lookup_eq_none_iff]
      intro q hq
      have : q.1 ≤ mx := hub q.1 (List.mem_map.2 ⟨q, hq, rfl⟩)
      have : age ≠ q.1 := by omega
      simpa using this
    unfold get_probability
    rw [hnone, hmx]
    cases hmn : (t.map Prod.fst).min? with
    | none =>
      exact absurd (List.min?_eq_none_iff.1 hmn) (fun h => hne (List.map_eq_nil_iff.1 h))
    | some mn =>
      have hmnx : mn ≤ mx := hub mn (List.min?_mem min_choice hmn)
      simp only [if_neg (by omega : ¬ age < mn)]
      exact lookup_of_mem_nodup hnd hp

/-- Witness for C3 on the default table: an in-range age hits its own
band, a low age clamps to key 20, a high age clamps to key 73. -/
theorem claim_C3_witness :
    get_probability 55 DEFAULT_PROBABILITY_TABLE = some (0.010286, 0.989714)
    ∧ get_probability 10 DEFAULT_PROBABILITY_TABLE = some (0.001152, 0.998848)
    ∧ get_probability 100 DEFAULT_PROBABILITY_TABLE = some (0, 1) :=
  ⟨(claim_C3 DEFAULT_PROBABILITY_TABLE 55 (by decide) (by decide)).2.1
      (0.010286, 0.989714) (by decide!),
   (claim_C3 DEFAULT_PROBABILITY_TABLE 10 (by decide) (by decide)).2.2.1
      20 (0.001152, 0.998848) (by decide) (by decide) (by decide!),
   (claim_C3 DEFAULT_PROBABILITY_TABLE 100 (by decide) (by decide)).2.2.2
      73 (0, 1) (by decide) (by decide) (by decide!)⟩

/-!  ### Projection-loop lemmas  -/

/-- The loop emits exactly `fuel` rows. -/
lemma projectLoop_length (eid ename : String) (rate : ℚ) :
    ∀ (fuel : Nat) (age : Int) (sal : ℚ),
      (projectLoop eid ename rate fuel age sal).length = fuel := by
  intro fuel
  induction fuel with
  | zero => intro age sal; rfl
  | succ n ih =>
    intro age sal
    simp [projectLoop, ih]

/-- Ages of emitted rows lie in `[age, age + fuel)`. -/
lemma projectLoop_mem_age (eid ename : String) (rate : ℚ) :
    ∀ (fuel : Nat) (age : Int) (sal : ℚ) (r : Row),
      r ∈ projectLoop eid ename rate fuel age sal →
      age ≤ r.age ∧ r.age < age + fuel := by
  intro fuel
  induction fuel with
  | zero => intro age sal r hr; cases hr
  | succ n ih =>
    intro age sal r hr
    rw [projectLoop] at hr
    rcases List.mem_cons.1 hr with h | h
    · subst h; simp
    · have := ih (age + 1) (sal * (1 + rate)) r h
      push_cast at this ⊢
      omega

/-- The `k`-th row of the loop, in closed form. -/
lemma projectLoop_getElem (eid ename : String) (rate : ℚ) :
    ∀ (fuel k : Nat) (age : Int) (sal : ℚ), k < fuel →
      (projectLoop eid ename rate fuel age sal)[k]? =
        some { emp_id := eid, emp_name := ename, age := age + k
               future_salary := roundTo 2 (sal * (1 + rate) ^ k)
               survival_prob := (lookupDefault (age + k)).2
               death_prob := (lookupDefault (age + k)).1
               expected_death_outflow :=
                 roundTo 6 (sal * (1 + rate) ^ k
                   * (lookupDefault (age + k)).2 * (lookupDefault (age + k)).1) } := by
  intro fuel
  induction fuel with
  | zero => intro k age sal hk; omega
  | succ n ih =>
    intro k age sal hk
    cases k with
    | zero =>
      rw [projectLoop]
      simp only [Nat.cast_zero, add_zero, pow_zero, mul_one, List.getElem?_cons_zero]
    | succ k =>
      rw [projectLoop]
      simp only [List.getElem?_cons_succ]
      rw [ih k (age + 1) (sal * (1 + rate)) (by omega)]
      have hage : age + 1 + (k : Int) = age + ((k : Nat) + 1 : Nat) := by push_cast; ring
      rw [hage]
      simp only [Option.some.injEq, Row.mk.injEq]
      refine ⟨by trivial, by trivial, by trivial, ?_, by trivial, by trivial, ?_⟩
      · congr 1; ring
      · congr 1; ring

/-- Closed form of the unrounded salary recurrence. -/
lemma usal_closed (salary rate : ℚ) :
    ∀ k : Nat, usal salary rate k = salary * (1 + rate) ^ (k + 1) := by
  intro k
  induction k with
  | zero => simp [usal]
  | succ n ih => rw [usal, ih]; ring

/-- The unrounded salary is positive for a positive salary and a rate
above -1. -/
lemma usal_pos {salary rate : ℚ} (hs : 0 < salary) (hr : 0 < 1 + rate) :
    ∀ k : Nat, 0 < usal salary rate k := by
  intro k
  induction k with
  | zero => exact mul_pos hs hr
  | succ n ih => exact mul_pos ih hr

/-!  ### C4  -/

/-- C4: every emitted row's age lies in
[current age, retirement age - 1], and an employee whose current age is
at or past the retirement age contributes zero rows. -/
theorem claim_C4 (a : Assumptions) (e : Employee) :
    (∀ r ∈ projectEmployee a e,
        calculate_age e.date_birth a.valuation_date ≤ r.age
        ∧ r.age ≤ a.retirement_age - 1)
    ∧ (a.retirement_age ≤ calculate_age e.date_birth a.valuation_date →
        projectEmployee a e = []) := by
  constructor
  · intro r hr
    simp only [projectEmployee] at hr
    have h := projectLoop_mem_age e.emp_id e.emp_name a.salary_increase_rate
      _ _ _ r hr
    omega
  · intro h
    simp only [projectEmployee]
    rw [show (a.retirement_age - calculate_age e.date_birth a.valuation_date).toNat = 0
      by omega]
    rfl

/-- Witness for C4: the first row of the scenario employee satisfies the
bounds, and an employee past retirement age yields no rows. -/
theorem claim_C4_witness :
    (calculate_age alice.date_birth defaultAssumptions.valuation_date
        ≤ ((projectEmployee defaultAssumptions alice).headD emptyRow).age
      ∧ ((projectEmployee defaultAssumptions alice).headD emptyRow).age
        ≤ defaultAssumptions.retirement_age - 1)
    ∧ projectEmployee defaultAssumptions bob = [] :=
  ⟨(claim_C4 defaultAssumptions alice).1 _ (by decide!),
   (claim_C4 defaultAssumptions bob).2 (by decide)⟩

/-!  ### C5  -/

/-- C5: the claim asserts strictly increasing unrounded future salaries
for every employee once the increase rate is positive.  An employee with
salary 0 (accepted by the interpreter) yields a constant zero salary
sequence over 5 emitted rows, and its first projected value 0 also equals
the raw input salary. -/
theorem claim_C5_counterexample :
    (projectEmployee defaultAssumptions alice0).length = 5
    ∧ (0 : ℚ) < defaultAssumptions.salary_increase_rate
    ∧ usal alice0.salary defaultAssumptions.salary_increase_rate 0
        = usal alice0.salary defaultAssumptions.salary_increase_rate 1
    ∧ ((projectEmployee defaultAssumptions alice0).map Row.future_salary).head?
        = some alice0.salary := by
  refine ⟨by decide!, by decide!, by decide!, by decide!⟩

/-- C5 (amended): the first emitted row always displays
`round(salary * (1 + rate), 2)` — computed from `salary * (1 + rate)`,
not the raw salary — and for a positive rate and a positive salary the
unrounded future salary is strictly increasing across consecutive
projected years. -/
theorem claim_C5_amended (a : Assumptions) (e : Employee) (row : Row)
    (hhead : (projectEmployee a e).head? = some row) :
    row.future_salary = roundTo 2 (e.salary * (1 + a.salary_increase_rate))
    ∧ (0 < a.salary_increase_rate → 0 < e.salary → ∀ k : Nat,
        usal e.salary a.salary_increase_rate k
          < usal e.salary a.salary_increase_rate (k + 1)) := by
  constructor
  · simp only [projectEmployee] at hhead
    cases hfuel : (a.retirement_age - calculate_age e.date_birth a.valuation_date).toNat with
    | zero => rw [hfuel] at hhead; cases hhead
    | succ n =>
      rw [hfuel, projectLoop] at hhead
      simp only [List.head?_cons, Option.some.injEq] at hhead
      rw [← hhead]
  · intro hr hs k
    have h1 : (0 : ℚ) < 1 + a.salary_increase_rate := by linarith
    have hpos := usal_pos hs h1 k
    rw [show usal e.salary a.salary_increase_rate (k + 1)
        = usal e.salary a.salary_increase_rate k * (1 + a.salary_increase_rate) from rfl]
    have h2 : (1 : ℚ) < 1 + a.salary_increase_rate := by linarith
    exact (lt_mul_iff_one_lt_right hpos).2 h2

/-- Witness for C5 (amended) on the scenario employee. -/
theorem claim_C5_witness :
    ((projectEmployee defaultAssumptions alice).headD emptyRow).future_salary
      = roundTo 2 (alice.salary * (1 + defaultAssumptions.salary_increase_rate))
    ∧ usal alice.salary defaultAssumptions.salary_increase_rate 0
      < usal alice.salary defaultAssumptions.salary_increase_rate 1 :=
  ⟨(claim_C5_amended defaultAssumptions alice
      ((projectEmployee defaultAssumptions alice).headD emptyRow) (by decide!)).1,
   (claim_C5_amended defaultAssumptions alice
      ((projectEmployee defaultAssumptions alice).headD emptyRow) (by decide!)).2
     (by decide!) (by decide!) 0⟩

/-!  ### Interpreter lemmas  -/

/-- A fully blank string fails date parsing. -/
lemma parse_date_blank {s : String} (h : stripChars s.data = []) :
    parse_date s = none := by
  simp only [parse_date, h]
  rfl

/-!  ### C6  -/

/-- C6: a row of at least 5 cells that is not an assumption row and whose
birth date, joining date or salary fails to convert is dropped: the state
is unchanged and no error is raised.  An assumption row whose key matches
but whose value fails the corresponding conversion turns the whole run
into an error. -/
theorem claim_C6 :
    (∀ (st : Assumptions × List Employee) (c0 c1 c2 c3 c4 : String)
        (rest : List String),
        pyLower (pyStrip c0) ∉ assumptionKeys →
        (parse_date c2 = none ∨ parse_date c3 = none ∨
          parseFloat (salaryCell c4) = none) →
        processRow st (c0 :: c1 :: c2 :: c3 :: c4 :: rest) = .ok st)
    ∧ (∀ (rows₁ rows₂ : List (List String)) (st : Assumptions × List Employee)
          (c0 val : String) (rest : List String),
        List.foldlM processRow (defaultAssumptions, []) rows₁ = .ok st →
        pyLower (pyStrip c0) ∈ assumptionKeys →
        assumptionValOk (pyLower (pyStrip c0)) val = false →
        (process_cashflow (rows₁ ++ (c0 :: val :: rest) :: rows₂)).isOk = false) := by
  constructor
  · intro st c0 c1 c2 c3 c4 rest hkey hfail
    have hemp : parseEmployeeRow (c0 :: c1 :: c2 :: c3 :: c4 :: rest) = none := by
      unfold parseEmployeeRow
      rcases hfail with h | h | h
      · simp [h]
      · cases hb : parse_date c2 <;> simp [hb, h]
      · cases hb : parse_date c2 <;> cases hj : parse_date c3 <;> simp [hb, hj, h]
    simp only [processRow, List.headD_cons]
    by_cases hb : ∀ c ∈ (c0 :: c1 :: c2 :: c3 :: c4 :: rest), stripChars c.data = []
    · rw [if_pos hb]
    · rw [if_neg hb, if_neg (fun h => hkey h.2), if_pos (by simp)]
      by_cases hh : pyLower (pyStrip c0) ∈ (["emp_id", "employee_id", "id"] : List String)
      · rw [if_pos hh]
      · rw [if_neg hh, hemp]
  · intro rows₁ rows₂ st c0 val rest hfold hkey hbad
    have hblank : ¬ ∀ c ∈ (c0 :: val :: rest), stripChars c.data = [] := by
      intro hall
      have h0 : stripChars c0.data = [] := hall c0 (by simp)
      have hk0 : pyLower (pyStrip c0) = "" := by
        simp only [pyLower, pyStrip, h0]
        rfl
      rw [hk0] at hkey
      exact absurd hkey (by decide)
    have hrow : ∃ msg, processRow st (c0 :: val :: rest) = .error msg := by
      simp only [processRow, List.headD_cons, List.drop_succ_cons, List.drop_zero]
      rw [if_neg hblank, if_pos ⟨by simp, hkey⟩]
      simp only [assumptionKeys, List.mem_cons, List.not_mem_nil, or_false] at hkey
      unfold assumptionValOk at hbad
      rcases hkey with h | h | h | h
      · rw [if_pos h]
        rw [h, if_pos rfl] at hbad
        cases hpd : parse_date val with
        | some d => rw [hpd] at hbad; simp at hbad
        | none => exact ⟨_, rfl⟩
      · rw [if_neg (by rw [h]; decide), if_pos h]
        rw [h, if_neg (by decide), if_pos rfl] at hbad
        cases hpf : parseFloat val with
        | some x => rw [hpf] at hbad; simp at hbad
        | none => exact ⟨_, rfl⟩
      · rw [if_neg (by rw [h]; decide), if_neg (by rw [h]; decide), if_pos h]
        rw [h, if_neg (by decide), if_neg (by decide), if_pos rfl] at hbad
        cases hpf : parseFloat val with
        | some x => rw [hpf] at hbad; simp at hbad
        | none => exact ⟨_, rfl⟩
      · rw [if_neg (by rw [h]; decide), if_neg (by rw [h]; decide),
          if_neg (by rw [h]; decide)]
        rw [h, if_neg (by decide), if_neg (by decide), if_neg (by decide),
          if_pos rfl] at hbad
        cases hpi : parseInt val with
        | some n => rw [hpi] at hbad; simp at hbad
        | none => exact ⟨_, rfl⟩
    obtain ⟨msg, hmsg⟩ := hrow
    unfold process_cashflow
    rw [List.foldlM_append, hfold]
    have h1 : ((Except.ok st : Except String (Assumptions × List Employee)) >>=
        fun s => List.foldlM processRow s ((c0 :: val :: rest) :: rows₂))
        = List.foldlM processRow st ((c0 :: val :: rest) :: rows₂) := rfl
    rw [h1, List.foldlM_cons, hmsg]
    rfl

/-- Witness for C6: an employee row with an unparseable birth date is
dropped, and a run containing a non-numeric `discount_rate` row errors. -/
theorem claim_C6_witness :
    processRow (defaultAssumptions, []) ["E9", "Bad", "nonsense", "2000-01-01", "50000"]
      = .ok (defaultAssumptions, [])
    ∧ (process_cashflow [["E1", "Alice", "1970-01-01", "2000-01-01", "50000"],
        ["discount_rate", "abc"]]).isOk = false :=
  ⟨claim_C6.1 (defaultAssumptions, []) "E9" "Bad" "nonsense" "2000-01-01" "50000" []
      (by decide) (Or.inl (by decide)),
   claim_C6.2 [["E1", "Alice", "1970-01-01", "2000-01-01", "50000"]] []
      (defaultAssumptions, [alice]) "discount_rate" "abc" []
      (by decide!) (by decide) (by decide!)⟩

/-!  ### C7  -/

/-- C7: the claim says every row with fewer than 2 non-blank cells is
skipped without error, including an assumption-key row with a blank value
cell.  The row `["valuation_date", ""]` has one non-blank cell, yet the
classifier enters the assumption branch and the date conversion of the
blank value raises, aborting the run. -/
theorem claim_C7_counterexample :
    nonBlankCount ["valuation_date", ""] = 1
    ∧ (processRow (defaultAssumptions, []) ["valuation_date", ""]).isOk = false := by
  refine ⟨by decide, by decide!⟩

/-- C7 (amended): all-blank rows, rows with fewer than 2 cells, and rows
with fewer than 2 non-blank cells whose first cell is not an assumption
key are skipped entirely (state unchanged, no employee, no error); the
exception is a row of ≥ 2 cells whose first cell is an assumption key and
whose value cell is blank, which instead aborts the run. -/
theorem claim_C7_amended (st : Assumptions × List Employee) (row : List String) :
    ((∀ c ∈ row, stripChars c.data = []) → processRow st row = .ok st)
    ∧ (row.length < 2 → processRow st row = .ok st)
    ∧ (nonBlankCount row < 2 → pyLower (pyStrip (row.headD "")) ∉ assumptionKeys →
        processRow st row = .ok st) := by
  refine ⟨?_, ?_, ?_⟩
  · intro hall
    simp only [processRow]
    rw [if_pos hall]
  · intro hlen
    by_cases hall : ∀ c ∈ row, stripChars c.data = []
    · simp only [processRow]; rw [if_pos hall]
    · simp only [processRow]
      rw [if_neg hall, if_neg (fun h => by omega),
        if_neg (by intro h; omega)]
  · intro hcount hkey
    by_cases hall : ∀ c ∈ row, stripChars c.data = []
    · simp only [processRow]; rw [if_pos hall]
    · simp only [processRow]
      rw [if_neg hall, if_neg (fun h => hkey h.2)]
      by_cases hlen : 5 ≤ row.length
      · rw [if_pos hlen]
        by_cases hh : pyLower (pyStrip (row.headD "")) ∈
            (["emp_id", "employee_id", "id"] : List String)
        · rw [if_pos hh]
        · rw [if_neg hh]
          match row, hlen with
          | c0 :: c1 :: c2 :: c3 :: c4 :: rest, _ =>
            have hemp : parseEmployeeRow (c0 :: c1 :: c2 :: c3 :: c4 :: rest) = none := by
              have hsub : List.Sublist [c2, c3] (c0 :: c1 :: c2 :: c3 :: c4 :: rest) :=
                (((List.nil_sublist (c4 :: rest)).cons₂ c3).cons₂ c2).cons c1 |>.cons c0
              by_cases h2b : stripChars c2.data = []
              · simp only [parseEmployeeRow]
                rw [parse_date_blank h2b]
                rfl
              · by_cases h3b : stripChars c3.data = []
                · simp only [parseEmployeeRow]
                  rw [parse_date_blank h3b]
                  cases parse_date c2 <;> rfl
                · exfalso
                  have hfil : List.filter (fun c => !(stripChars c.data).isEmpty) [c2, c3]
                      = [c2, c3] := by
                    simp [List.filter_cons, List.isEmpty_eq_false, h2b, h3b]
                  have hle := (hsub.filter (fun c => !(stripChars c.data).isEmpty)).length_le
                  rw [hfil] at hle
                  simp only [List.length_cons, List.length_nil] at hle
                  unfold nonBlankCount at hcount
                  omega
            rw [hemp]
      · rw [if_neg hlen]

/-- Witness for C7 (amended): an all-blank row, a one-cell row and a
two-cell non-assumption row with a blank second cell are all skipped. -/
theorem claim_C7_witness :
    processRow (defaultAssumptions, []) ["", " "] = .ok (defaultAssumptions, [])
    ∧ processRow (defaultAssumptions, []) ["hello"] = .ok (defaultAssumptions, [])
    ∧ processRow (defaultAssumptions, []) ["foo", ""] = .ok (defaultAssumptions, []) :=
  ⟨(claim_C7_amended (defaultAssumptions, []) ["", " "]).1 (by decide),
   (claim_C7_amended (defaultAssumptions, []) ["hello"]).2.1 (by decide),
   (claim_C7_amended (defaultAssumptions, []) ["foo", ""]).2.2 (by decide) (by decide)⟩

/-!  ### C8  -/

/-- C8: every emitted row displays the unrounded future salary rounded to
2 decimal places, while its expected death outflow is the un-rounded
future salary times px times qx, rounded to 6 decimal places; the rounded
display value feeds neither the outflow nor later salaries. -/
theorem claim_C8 (a : Assumptions) (e : Employee) (k : Nat) (r : Row)
    (hr : (projectEmployee a e)[k]? = some r) :
    r.future_salary = roundTo 2 (usal e.salary a.salary_increase_rate k)
    ∧ r.expected_death_outflow
      = roundTo 6 (usal e.salary a.salary_increase_rate k
          * r.survival_prob * r.death_prob) := by
  simp only [projectEmployee] at hr
  have hk : k < (a.retirement_age - calculate_age e.date_birth a.valuation_date).toNat := by
    by_contra hnk
    rw [List.getElem?_eq_none (by rw [projectLoop_length]; omega)] at hr
    cases hr
  rw [projectLoop_getElem _ _ _ _ _ _ _ hk] at hr
  injection hr with hr
  subst hr
  dsimp only
  constructor
  · rw [usal_closed]
    congr 1
    ring
  · rw [usal_closed]
    congr 1
    ring

/-- Witness for C8 at the scenario employee's first row. -/
theorem claim_C8_witness :
    ((projectEmployee defaultAssumptions alice).headD emptyRow).future_salary
      = roundTo 2 (usal alice.salary defaultAssumptions.salary_increase_rate 0)
    ∧ ((projectEmployee defaultAssumptions alice).headD emptyRow).expected_death_outflow
      = roundTo 6 (usal alice.salary defaultAssumptions.salary_increase_rate 0
          * ((projectEmployee defaultAssumptions alice).headD emptyRow).survival_prob
          * ((projectEmployee defaultAssumptions alice).headD emptyRow).death_prob) :=
  claim_C8 defaultAssumptions alice 0
    ((projectEmployee defaultAssumptions alice).headD emptyRow) (by decide!)

/-!  ### C9  -/

/-- C9: the date parser tries ISO, ISO+time, day/month/year,
month/day/year, dash-separated day-month-year in this order and returns
the first success, so "05/06/2024" — which month/day/year would read as
May 6 — parses as 5 June 2024; if every format fails, parsing fails. -/
theorem claim_C9 :
    parse_date "05/06/2024" = some ⟨2024, 6, 5⟩
    ∧ parseFmtMDY (stripChars "05/06/2024".data) = some ⟨2024, 5, 6⟩
    ∧ (∀ (s : String) (d : Date),
        parseFmtYMD (stripChars s.data) = none →
        parseFmtYMDHMS (stripChars s.data) = none →
        parseFmtDMY (stripChars s.data) = some d →
        parse_date s = some d)
    ∧ (∀ s : String,
        parseFmtYMD (stripChars s.data) = none →
        parseFmtYMDHMS (stripChars s.data) = none →
        parseFmtDMY (stripChars s.data) = none →
        parseFmtMDY (stripChars s.data) = none →
        parseFmtDMYdash (stripChars s.data) = none →
        parse_date s = none) := by
  refine ⟨by decide, by decide, ?_, ?_⟩
  · intro s d h1 h2 h3
    simp only [parse_date, h1, h2, h3]
    rfl
  · intro s h1 h2 h3 h4 h5
    simp only [parse_date, h1, h2, h3, h4, h5]
    rfl

/-- Witness for C9: another ambiguous date resolved day-first, and a
non-date string rejected by every format. -/
theorem claim_C9_witness :
    parse_date "01/02/2024" = some ⟨2024, 2, 1⟩
    ∧ parse_date "garbage" = none :=
  ⟨claim_C9.2.2.1 "01/02/2024" ⟨2024, 2, 1⟩ (by decide) (by decide) (by decide),
   claim_C9.2.2.2 "garbage" (by decide) (by decide) (by decide) (by decide) (by decide)⟩

/-!  ### C10  -/

/-- C10: the iterated multiply-per-year salary equals the closed-form
exponential `salary * (1 + rate) ^ (k + 1)`, and that closed form is what
the `k`-th emitted row displays (rounded to 2 decimals). -/
theorem claim_C10 (a : Assumptions) (e : Employee) (k : Nat) (r : Row)
    (hr : (projectEmployee a e)[k]? = some r) :
    usal e.salary a.salary_increase_rate k
      = e.salary * (1 + a.salary_increase_rate) ^ (k + 1)
    ∧ r.future_salary
      = roundTo 2 (e.salary * (1 + a.salary_increase_rate) ^ (k + 1)) := by
  refine ⟨usal_closed _ _ k, ?_⟩
  simp only [projectEmployee] at hr
  have hk : k < (a.retirement_age - calculate_age e.date_birth a.valuation_date).toNat := by
    by_contra hnk
    rw [List.getElem?_eq_none (by rw [projectLoop_length]; omega)] at hr
    cases hr
  rw [projectLoop_getElem _ _ _ _ _ _ _ hk] at hr
  injection hr with hr
  subst hr
  dsimp only
  congr 1
  ring

/-- Witness for C10 at the scenario employee's third row. -/
theorem claim_C10_witness :
    usal alice.salary defaultAssumptions.salary_increase_rate 2
      = alice.salary * (1 + defaultAssumptions.salary_increase_rate) ^ 3
    ∧ ((projectEmployee defaultAssumptions alice).headD emptyRow).future_salary
      = roundTo 2 (alice.salary * (1 + defaultAssumptions.salary_increase_rate) ^ 1) :=
  ⟨(claim_C10 defaultAssumptions alice 2
      ((projectEmployee defaultAssumptions alice).get ⟨2, by decide!⟩) (by decide!)).1,
   (claim_C10 defaultAssumptions alice 0
      ((projectEmployee defaultAssumptions alice).headD emptyRow) (by decide!)).2⟩
